import Mathlib

/-
Verification of the mapping engine in `generate_registry_json.py`
(NimbusInformatics/ga4gh-registry-tools).

The Python values flowing through the engine (spreadsheet cells, mapped
constants, nested record objects) are embedded as the inductive `Value`.
Python dicts are association lists in insertion order, which matches
CPython's ordered-dict semantics: assigning to an existing key keeps its
position, assigning a fresh key appends.
-/

/-- A Python value as the engine sees it: `vnone` is Python `None`,
`nan` is a float NaN cell, scalars keep their type, `obj` is a dict in
insertion order, `arr` a list. -/
inductive Value where
  | vnone : Value
  | nan : Value
  | str : String → Value
  | num : ℚ → Value
  | bool : Bool → Value
  | date : ℕ → ℕ → ℕ → ℕ → ℕ → ℕ → Value
  | obj : List (String × Value) → Value
  | arr : List Value → Value

abbrev Fields := List (String × Value)

/-- Dict lookup: first binding wins (insertion-ordered dicts have unique keys). -/
def getField : Fields → String → Option Value
  | [], _ => none
  | (k', v') :: rest, k => if k' = k then some v' else getField rest k

/-- Dict assignment `d[k] = v`: overwrite in place if the key exists,
append otherwise (CPython dict semantics). -/
def setKey : Fields → String → Value → Fields
  | [], k, v => [(k, v)]
  | (k', v') :: rest, k, v =>
    if k' = k then (k, v) :: rest else (k', v') :: setKey rest k v

/-- Key-insertion sort used to compare dicts up to key order (Python `==`
on dicts ignores insertion order). -/
def insertField (x : String × Value) : Fields → Fields
  | [] => [x]
  | y :: ys => if x.1 ≤ y.1 then x :: y :: ys else y :: insertField x ys

def sortFields : Fields → Fields
  | [] => []
  | x :: xs => insertField x (sortFields xs)

mutual
/-- Normal form of a value under Python dict equality: object fields are
sorted by key at every level. Two engine-produced values are `==` in
Python iff their normal forms coincide. Arrays are compared verbatim. -/
def Value.norm : Value → Value
  | .obj fs => .obj (sortFields (normFields fs))
  | v => v

def normFields : Fields → Fields
  | [] => []
  | (k, v) :: rest => (k, Value.norm v) :: normFields rest
end

mutual
/-- Structural decidable equality for `Value`. -/
def Value.decEq : (a b : Value) → Decidable (a = b)
  | .vnone, .vnone => isTrue rfl
  | .nan, .nan => isTrue rfl
  | .str a, .str b =>
    if h : a = b then isTrue (by rw [h]) else isFalse (fun hh => h (Value.str.inj hh))
  | .num a, .num b =>
    if h : a = b then isTrue (by rw [h]) else isFalse (fun hh => h (Value.num.inj hh))
  | .bool a, .bool b =>
    if h : a = b then isTrue (by rw [h]) else isFalse (fun hh => h (Value.bool.inj hh))
  | .date a b c d e f, .date a' b' c' d' e' f' =>
    if h : a = a' ∧ b = b' ∧ c = c' ∧ d = d' ∧ e = e' ∧ f = f' then
      isTrue (by obtain ⟨h1, h2, h3, h4, h5, h6⟩ := h; rw [h1, h2, h3, h4, h5, h6])
    else
      isFalse (fun hh => by
        obtain ⟨h1, h2, h3, h4, h5, h6⟩ := Value.date.inj hh
        exact h ⟨h1, h2, h3, h4, h5, h6⟩)
  | .obj fs, .obj gs =>
    match decEqFields fs gs with
    | isTrue h => isTrue (by rw [h])
    | isFalse h => isFalse (fun hh => h (Value.obj.inj hh))
  | .arr xs, .arr ys =>
    match decEqList xs ys with
    | isTrue h => isTrue (by rw [h])
    | isFalse h => isFalse (fun hh => h (Value.arr.inj hh))
  | .vnone, .nan | .vnone, .str _ | .vnone, .num _ | .vnone, .bool _
  | .vnone, .date _ _ _ _ _ _ | .vnone, .obj _ | .vnone, .arr _
  | .nan, .vnone | .nan, .str _ | .nan, .num _ | .nan, .bool _
  | .nan, .date _ _ _ _ _ _ | .nan, .obj _ | .nan, .arr _
  | .str _, .vnone | .str _, .nan | .str _, .num _ | .str _, .bool _
  | .str _, .date _ _ _ _ _ _ | .str _, .obj _ | .str _, .arr _
  | .num _, .vnone | .num _, .nan | .num _, .str _ | .num _, .bool _
  | .num _, .date _ _ _ _ _ _ | .num _, .obj _ | .num _, .arr _
  | .bool _, .vnone | .bool _, .nan | .bool _, .str _ | .bool _, .num _
  | .bool _, .date _ _ _ _ _ _ | .bool _, .obj _ | .bool _, .arr _
  | .date _ _ _ _ _ _, .vnone | .date _ _ _ _ _ _, .nan | .date _ _ _ _ _ _, .str _
  | .date _ _ _ _ _ _, .num _ | .date _ _ _ _ _ _, .bool _
  | .date _ _ _ _ _ _, .obj _ | .date _ _ _ _ _ _, .arr _
  | .obj _, .vnone | .obj _, .nan | .obj _, .str _ | .obj _, .num _
  | .obj _, .bool _ | .obj _, .date _ _ _ _ _ _ | .obj _, .arr _
  | .arr _, .vnone | .arr _, .nan | .arr _, .str _ | .arr _, .num _
  | .arr _, .bool _ | .arr _, .date _ _ _ _ _ _ | .arr _, .obj _ =>
    isFalse (by intro h; exact Value.noConfusion h)

def decEqFields : (a b : Fields) → Decidable (a = b)
  | [], [] => isTrue rfl
  | [], _ :: _ => isFalse (by intro h; exact List.noConfusion h)
  | _ :: _, [] => isFalse (by intro h; exact List.noConfusion h)
  | (k, v) :: rest, (k', v') :: rest' =>
    if hk : k = k' then
      match Value.decEq v v' with
      | isTrue hv =>
        match decEqFields rest rest' with
        | isTrue hr => isTrue (by rw [hk, hv, hr])
        | isFalse hr => isFalse (fun hh => hr (List.tail_eq_of_cons_eq hh))
      | isFalse hv =>
        isFalse (fun hh => hv (congrArg Prod.snd (List.head_eq_of_cons_eq hh)))
    else isFalse (fun hh => hk (congrArg Prod.fst (List.head_eq_of_cons_eq hh)))

def decEqList : (a b : List Value) → Decidable (a = b)
  | [], [] => isTrue rfl
  | [], _ :: _ => isFalse (by intro h; exact List.noConfusion h)
  | _ :: _, [] => isFalse (by intro h; exact List.noConfusion h)
  | v :: rest, v' :: rest' =>
    match Value.decEq v v' with
    | isTrue hv =>
      match decEqList rest rest' with
      | isTrue hr => isTrue (by rw [hv, hr])
      | isFalse hr => isFalse (fun hh => hr (List.tail_eq_of_cons_eq hh))
    | isFalse hv => isFalse (fun hh => hv (List.head_eq_of_cons_eq hh))
end

instance : DecidableEq Value := Value.decEq

instance {ε α : Type} [DecidableEq ε] [DecidableEq α] : DecidableEq (Except ε α)
  | .ok x, .ok y =>
    if h : x = y then .isTrue (by rw [h]) else .isFalse (fun hh => h (by cases hh; rfl))
  | .ok _, .error _ => .isFalse (fun hh => Except.noConfusion hh)
  | .error _, .ok _ => .isFalse (fun hh => Except.noConfusion hh)
  | .error e, .error e' =>
    if h : e = e' then .isTrue (by rw [h]) else .isFalse (fun hh => h (by cases hh; rfl))

/-! ### String helpers

Self-contained models of the Python string operations the engine uses
(`str.strip`, `str.split`, `in`, `str.strip("-")`), written over `List Char`
so that every definition reduces in the kernel. Unicode-only divergences
(`str.lower`/`isalnum` beyond ASCII) are outside the charset any claim
exercises. -/

/-- Drop characters satisfying `p` from both ends of a list
(Python `str.strip` family). -/
def dropEnds (p : Char → Bool) (l : List Char) : List Char :=
  ((l.dropWhile p).reverse.dropWhile p).reverse

/-- Python `str.strip()` with no argument: remove surrounding whitespace. -/
def pyStrip (s : String) : String :=
  String.mk (dropEnds Char.isWhitespace s.data)

/-- Python `str.split(sep)` for a single-character separator: keeps empty
pieces, `"".split(sep) == [""]`. -/
def splitChar (sep : Char) : List Char → List (List Char)
  | [] => [[]]
  | c :: cs =>
    let r := splitChar sep cs
    if c = sep then [] :: r
    else
      match r with
      | h :: t => (c :: h) :: t
      | [] => [[c]]

/-- The key sequence of a dot path: Python `path.split(".")`. -/
def pathKeys (path : String) : List String :=
  (splitChar '.' path.data).map String.mk

/-- Does `l` start with `pat`? -/
def startsWith : List Char → List Char → Bool
  | [], _ => true
  | _ :: _, [] => false
  | p :: ps, c :: cs => p = c && startsWith ps cs

/-- Python substring test `pat in s` over char lists. -/
def containsList (pat : List Char) : List Char → Bool
  | [] => startsWith pat []
  | c :: cs => startsWith pat (c :: cs) || containsList pat cs

/-- Python `sub in k` on strings. -/
def strContains (sub k : String) : Bool :=
  containsList sub.data k.data

/-- The per-character body of `_slugify`'s generator expression:
`ch.lower() if ch.isalnum() else "-"`. -/
def mapCh (ch : Char) : Char :=
  if ch.isAlphanum then ch.toLower else '-'

/-- `_slugify` (source lines 83-84): lowercase each alphanumeric character,
replace each non-alphanumeric character by a hyphen, then strip leading and
trailing hyphens (`.strip("-")`). -/
def _slugify (key : String) : String :=
  String.mk (dropEnds (fun c => c = '-') (key.data.map mapCh))

/-- Modelled from the spec words of claim C3: lowercase, collapse every
maximal run of consecutive non-alphanumeric characters to a single hyphen,
strip leading/trailing hyphens. The flag records whether we are inside a
non-alphanumeric run. -/
def collapseCh (inRun : Bool) : List Char → List Char
  | [] => []
  | c :: cs =>
    if c.isAlphanum then c.toLower :: collapseCh false cs
    else if inRun then collapseCh true cs
    else '-' :: collapseCh true cs

def slugSpec (key : String) : String :=
  String.mk (dropEnds (fun c => c = '-') (collapseCh false key.data))

/-! ### Python `float()` model

Floats are modelled as exact rationals. The accepted grammar is
`[+-]? digits [. digits] [(e|E) [+-]? digits]` with at least one digit in
the mantissa, matching Python's `float()` on the decimal literals the
claims exercise (special forms `inf`/`nan`/digit underscores are not
modelled; no claim depends on them). -/

def digitsToNat (l : List Char) : ℕ :=
  l.foldl (fun n c => 10 * n + (c.toNat - '0'.toNat)) 0

def parseQ (s : String) : Option ℚ :=
  let l := s.data
  let sgnRest : ℤ × List Char :=
    match l with
    | '+' :: r => (1, r)
    | '-' :: r => (-1, r)
    | _ => (1, l)
  let sgn := sgnRest.1
  let l1 := sgnRest.2
  let ip := l1.takeWhile Char.isDigit
  let r1 := l1.dropWhile Char.isDigit
  let fpRest : List Char × List Char :=
    match r1 with
    | '.' :: r => (r.takeWhile Char.isDigit, r.dropWhile Char.isDigit)
    | _ => ([], r1)
  let fp := fpRest.1
  let r2 := fpRest.2
  if ip.isEmpty && fp.isEmpty then none
  else
    let mantNum : ℤ := sgn * (digitsToNat ip * 10 ^ fp.length + digitsToNat fp)
    let mantDen : ℕ := 10 ^ fp.length
    match r2 with
    | [] => some (mkRat mantNum mantDen)
    | e :: r3 =>
      if e = 'e' || e = 'E' then
        let esgnRest : ℤ × List Char :=
          match r3 with
          | '+' :: r => (1, r)
          | '-' :: r => (-1, r)
          | _ => (1, r3)
        let ed := esgnRest.2.takeWhile Char.isDigit
        let r5 := esgnRest.2.dropWhile Char.isDigit
        if ed.isEmpty || !r5.isEmpty then none
        else
          let ex : ℤ := esgnRest.1 * (digitsToNat ed : ℤ)
          if 0 ≤ ex then some (mkRat (mantNum * 10 ^ ex.toNat) mantDen)
          else some (mkRat mantNum (mantDen * 10 ^ (-ex).toNat))
      else none

/-! ### Date rendering and Python str()

`Value.date y m d h mi s` stands for `pandas.Timestamp` / `datetime.datetime`
/ `datetime.date` (a bare date has zero time fields). `isoformat` models
`pd.to_datetime(o).isoformat()`, which prints fixed-width fields (datetime
years are 1..9999). -/

def pad2 (n : ℕ) : String :=
  String.mk [Nat.digitChar (n / 10 % 10), Nat.digitChar (n % 10)]

def pad4 (n : ℕ) : String :=
  String.mk [Nat.digitChar (n / 1000 % 10), Nat.digitChar (n / 100 % 10),
    Nat.digitChar (n / 10 % 10), Nat.digitChar (n % 10)]

def isoformat (y m d h mi s : ℕ) : String :=
  pad4 y ++ "-" ++ pad2 m ++ "-" ++ pad2 d ++ "T" ++ pad2 h ++ ":" ++ pad2 mi ++ ":" ++ pad2 s

/-- Model of Python `str()` on engine values. The engine inspects this text
only through `str(...).strip() == ""` in the required-field gate, so what
matters is which renderings are blank: only the empty/whitespace string is.
Exact numeric digits (Python prints `3.77`, the model prints the rational)
and container texts are not load-bearing for any claim. -/
def pyStr : Value → String
  | .vnone => "None"
  | .nan => "nan"
  | .str s => s
  | .num q => toString q
  | .bool b => if b then "True" else "False"
  | .date y m d h mi s =>
    pad4 y ++ "-" ++ pad2 m ++ "-" ++ pad2 d ++ " " ++ pad2 h ++ ":" ++ pad2 mi ++ ":" ++ pad2 s
  | .obj _ => "{...}"
  | .arr _ => "[...]"

/-! ### The engine (`generate_registry_json.py`) -/

/-- `pd.isna` on the cell values the engine reads (`None` is also NA). -/
def pdIsna : Value → Bool
  | .nan => true
  | .vnone => true
  | _ => false

/-- Python `val is None or val == ""` on a normalized value. -/
def isEmptyish : Value → Bool
  | .vnone => true
  | .str s => s.isEmpty
  | _ => false

def subObj : Option Value → Fields
  | some (.obj g) => g
  | _ => []

/-- `_set_deep` body (source lines 72-80) over an explicit key list: walk
`keys[:-1]`, replacing a missing or non-dict intermediate with `{}`, then
assign at the last key. -/
def setD : Fields → List String → Value → Fields
  | fs, [], _ => fs
  | fs, [k], v => setKey fs k v
  | fs, k :: k2 :: rest, v =>
    setKey fs k (.obj (setD (subObj (getField fs k)) (k2 :: rest) v))

/-- `_set_deep(d, path, value)`: split the dot path, then `setD`. -/
def _set_deep (fs : Fields) (path : String) (v : Value) : Fields :=
  setD fs (pathKeys path) v

/-- A mapping rule: a source-column reference, or `{"const": ...}`. -/
inductive Rule where
  | colRef (col : String)
  | constV (v : Value)

/-- The parsed configuration consumed by `build_records`. -/
structure Config where
  mapping : List (String × Rule)
  passthrough_cols : List String
  required_fields : List String
  drop_empty : Bool

/-- A spreadsheet row: column name to raw cell value. -/
abbrev Row := List (String × Value)

/-- `row.get(c, None)`. -/
def rowGet (row : Row) (c : String) : Value :=
  (getField row c).getD .vnone

/-- One required column's test (source line 104):
`pd.isna(row.get(c, None)) or str(row.get(c)).strip() == ""`. -/
def missingCol (row : Row) (c : String) : Bool :=
  pdIsna (rowGet row c) || (pyStrip (pyStr (rowGet row c))).isEmpty

/-- The required-field gate (source lines 101-107): the row is skipped when
the list of missing required columns is nonempty. -/
def rowMissing (required : List String) (row : Row) : Bool :=
  !(required.filter fun c => missingCol row c).isEmpty

/-- Resolve and normalize one mapping rule's value (source lines 113-124):
constant or cell, NA to `None`, strings stripped. -/
def resolveVal (row : Row) (rule : Rule) : Value :=
  let val :=
    match rule with
    | .constV c => c
    | .colRef col => rowGet row col
  let val := if pdIsna val then .vnone else val
  match val with
  | .str s => .str (pyStrip s)
  | v => v

/-- One mapping rule applied to the record under construction
(source lines 112-130): skip the rule when the resolved value is
`None`/empty (the `drop_empty` guard and the write guard coincide),
otherwise `_set_deep`. -/
def stepMap (row : Row) (drop : Bool) (fs : Fields) (path : String) (rule : Rule) : Fields :=
  let val := resolveVal row rule
  if drop && isEmptyish val then fs
  else if isEmptyish val then fs
  else _set_deep fs path val

/-- All mapping rules in configuration order. -/
def applyMapping (row : Row) (drop : Bool) (m : List (String × Rule)) : Fields :=
  m.foldl (fun fs pr => stepMap row drop fs pr.1 pr.2) []

/-- The value a passthrough column contributes, if any
(source lines 135-141): skip NA, strip strings, and with `drop_empty`
skip strings that strip to empty. -/
def survivingVal (row : Row) (drop : Bool) (col : String) : Option Value :=
  let val := rowGet row col
  if pdIsna val then none
  else
    match val with
    | .str s => if drop && (pyStrip s).isEmpty then none else some (.str (pyStrip s))
    | v => some v

/-- The `x-extra` bucket before geolocation enrichment
(source lines 133-143). -/
def buildBucket (row : Row) (drop : Bool) (cols : List String) : Fields :=
  cols.foldl
    (fun acc col =>
      match survivingVal row drop col with
      | none => acc
      | some v => setKey acc (_slugify col) v)
    []

def geoSub : String := "geolocation-latitude--longitude"

/-- The parse inside the geolocation `try` block (source lines 151-154):
split on `,`, strip each part, and succeed only on exactly two
float-parsable tokens. A `none` result is Python's swallowed exception or a
wrong token count. -/
def geoParse (raw : String) : Option (ℚ × ℚ) :=
  match (splitChar ',' raw.data).map (fun p => String.mk (dropEnds Char.isWhitespace p)) with
  | [p1, p2] =>
    match parseQ p1, parseQ p2 with
    | some lat, some lon => some (lat, lon)
    | _, _ => none
  | _ => none

/-- The per-key body of the geolocation loop (source lines 147-157): on a
matching key holding a string, a successful parse writes `geolocation`; any
parse failure leaves the bucket unchanged (the `try/except: pass`). -/
def geoStep (acc : Fields) (k : String) : Fields :=
  if strContains geoSub k then
    match getField acc k with
    | some (.str raw) =>
      match geoParse raw with
      | some (lat, lon) =>
        setKey acc "geolocation" (.obj [("lat", .num lat), ("lon", .num lon)])
      | none => acc
    | _ => acc
  else acc

/-- `for k in list(xextra.keys()): ...` — fold the loop body over a
snapshot of the bucket's keys. -/
def geoEnrich (bucket : Fields) : Fields :=
  (bucket.map Prod.fst).foldl geoStep bucket

/-- Python `dict.update`: merge `xs` into `g` left to right. -/
def updateFields (g : Fields) (xs : Fields) : Fields :=
  xs.foldl (fun acc kv => setKey acc kv.1 kv.2) g

/-- One row of the `build_records` loop (source lines 99-162).
`.ok none` is a skipped row, `.ok (some rec)` an emitted record, and
`.error ()` the `AttributeError` raised by
`obj.setdefault("x-extra", {}).update(xextra)` when a mapping rule left a
non-dict at key `"x-extra"`. -/
def buildRow (cfg : Config) (row : Row) : Except Unit (Option Value) :=
  if rowMissing cfg.required_fields row then .ok none
  else
    let obj := applyMapping row cfg.drop_empty cfg.mapping
    let bucket := geoEnrich (buildBucket row cfg.drop_empty cfg.passthrough_cols)
    if bucket.isEmpty then .ok (some (.obj obj))
    else
      match getField obj "x-extra" with
      | some (.obj g) => .ok (some (.obj (setKey obj "x-extra" (.obj (updateFields g bucket)))))
      | some _ => .error ()
      | none => .ok (some (.obj (setKey obj "x-extra" (.obj bucket))))

/-- `build_records` (source lines 90-164): all rows in order; a raised
exception aborts the whole batch. -/
def build_records (cfg : Config) : List Row → Except Unit (List Value)
  | [] => .ok []
  | r :: rest =>
    match buildRow cfg r, build_records cfg rest with
    | .error e, _ => .error e
    | .ok _, .error e => .error e
    | .ok none, .ok recs => .ok recs
    | .ok (some j), .ok recs => .ok (j :: recs)

/-- Output wrapping in `main` (source line 202):
`{array_name: records} if array_name else records`; `None` and the empty
string are falsy. -/
def wrapOutput (array_name : Option String) (records : List Value) : Value :=
  match array_name with
  | some s => if s.isEmpty then .arr records else .obj [(s, .arr records)]
  | none => .arr records

/-- `_json_default` (source lines 45-50): date/time values via
`pd.to_datetime(o).isoformat()`, everything else via `str(o)`. -/
def _json_default (o : Value) : Value :=
  match o with
  | .date y m d h mi s => .str (isoformat y m d h mi s)
  | v => .str (pyStr v)

/-! ### Predicates and helpers used in the statements -/

/-- Is this value a Python dict? (`isinstance(v, dict)`). -/
def isObjV : Value → Bool
  | .obj _ => true
  | _ => false

/-- Is this value date/time-typed?
(`isinstance(o, (pd.Timestamp, dt.datetime, dt.date))`). -/
def isDateV : Value → Bool
  | .date _ _ _ _ _ _ => true
  | _ => false

/-- Shape check for an ISO-8601 date-time string:
`DDDD-DD-DDTDD:DD:DD` with `D` a decimal digit. -/
def isIsoDT (t : String) : Bool :=
  match t.data with
  | [a, b, c, d, '-', e, f, '-', g, h, 'T', i, j, ':', k, l, ':', m, n] =>
    [a, b, c, d, e, f, g, h, i, j, k, l, m, n].all Char.isDigit
  | _ => false

/-- No two adjacent non-alphanumeric characters. On such column names the
run-collapsing slug of claim C3 coincides with the implemented one. -/
def noAdj : List Char → Bool
  | [] => true
  | [_] => true
  | c :: d :: rest => (c.isAlphanum || d.isAlphanum) && noAdj (d :: rest)

/-- Is the first key sequence an initial segment of the second? Two dot
paths are independent when neither key sequence leads the other. -/
def isLeading : List String → List String → Bool
  | [], _ => true
  | _ :: _, [] => false
  | a :: ps, b :: qs => a == b && isLeading ps qs

/-- The nested object a dot path builds from nothing: the closed form of
`setD [] (k :: ks) v` below the first key. -/
def payload : List String → Value → Value
  | [], v => v
  | k :: ks, v => .obj [(k, payload ks v)]

/-- The value the bucket ends up holding under slug `s`: the surviving
value of the last column in `cols` that slugs to `s` and survives the
emptiness filter; earlier survivors are overwritten, filtered-out columns
leave the previous survivor in place. -/
def lastSurviving (row : Row) (drop : Bool) (s : String) (cols : List String) : Option Value :=
  cols.foldl
    (fun b c =>
      if _slugify c = s then
        match survivingVal row drop c with
        | some v => some v
        | none => b
      else b)
    none

/-! ### Sanity checks of the embedding (spec section 8 scenarios) -/

example : Value.norm (.obj [("b", .num 2), ("a", .num 1)])
    = .obj [("a", .num 1), ("b", .num 2)] := by
  simp [Value.norm, normFields, sortFields, insertField]
  decide

example : getField [("a", .num 1)] "a" = some (.num 1) := by decide

example : _slugify "Data Center (Region)" = "data-center--region" := by decide
example : slugSpec "Data Center (Region)" = "data-center-region" := by decide

example : parseQ "37.77" = some (mkRat 3777 100) := by decide
example : parseQ "-122.42" = some (mkRat (-12242) 100) := by decide
example : parseQ "not-a-pair" = none := by decide
example : parseQ "1e3" = some (mkRat 1000 1) := by decide
example : parseQ "2e-2" = some (mkRat 2 100) := by decide
example : parseQ "" = none := by decide
example : parseQ "1.2.3" = none := by decide
example : parseQ ".5" = some (mkRat 5 10) := by decide

-- End-to-end sanity checks against spec section 8.
example :
    build_records
      ⟨[("id", .colRef "ID"), ("organization.name", .colRef "Org")], [], ["ID"], false⟩
      [[("ID", .str " s1 "), ("Org", .str "Acme")]]
    = .ok [.obj [("id", .str "s1"), ("organization", .obj [("name", .str "Acme")])]] := by
  decide

example :
    build_records
      ⟨[("id", .colRef "ID"), ("organization.name", .colRef "Org")], [], ["ID"], false⟩
      [[("ID", .str ""), ("Org", .str "Acme")]]
    = .ok [] := by decide

example :
    build_records ⟨[("environment", .constV (.str "prod"))], [], [], false⟩ [[("X", .num 1)]]
    = .ok [.obj [("environment", .str "prod")]] := by decide

example : _slugify "Geolocation(latitude, longitude)" = "geolocation-latitude--longitude" := by
  decide

example :
    build_records
      ⟨[], ["Geolocation(latitude, longitude)"], [], false⟩
      [[("Geolocation(latitude, longitude)", .str "37.77, -122.42")]]
    = .ok [.obj [("x-extra", .obj
        [("geolocation-latitude--longitude", .str "37.77, -122.42"),
         ("geolocation", .obj [("lat", .num (mkRat 3777 100)), ("lon", .num (mkRat (-12242) 100))])])]] := by
  decide

/-! ### Dict lemmas -/

theorem getField_setKey_self (fs : Fields) (k : String) (v : Value) :
    getField (setKey fs k v) k = some v := by
  induction fs with
  | nil => simp [setKey, getField]
  | cons hd tl ih =>
    obtain ⟨k', v'⟩ := hd
    by_cases h : k' = k
    · simp [setKey, getField, h]
    · simp [setKey, getField, h, ih]

theorem getField_setKey_other (fs : Fields) (k k' : String) (v : Value) (hk : k' ≠ k) :
    getField (setKey fs k v) k' = getField fs k' := by
  have hk2 : ¬(k = k') := fun hh => hk hh.symm
  induction fs with
  | nil => simp [setKey, getField, hk2]
  | cons hd tl ih =>
    obtain ⟨k0, v0⟩ := hd
    by_cases h : k0 = k
    · subst h
      simp [setKey, getField, hk2]
    · by_cases h2 : k0 = k' <;> simp [setKey, getField, h, h2, ih, hk]

theorem getField_setKey_cases (fs : Fields) (k0 : String) (v0 : Value) (k : String) (v : Value)
    (h : getField (setKey fs k0 v0) k = some v) :
    (k = k0 ∧ v = v0) ∨ getField fs k = some v := by
  by_cases hk : k = k0
  · subst hk
    rw [getField_setKey_self] at h
    exact Or.inl ⟨rfl, (Option.some_inj.mp h).symm⟩
  · rw [getField_setKey_other fs k0 k v0 hk] at h
    exact Or.inr h

theorem getField_mem {fs : Fields} {k : String} {v : Value}
    (h : getField fs k = some v) : (k, v) ∈ fs := by
  induction fs with
  | nil => simp [getField] at h
  | cons hd tl ih =>
    obtain ⟨k', v'⟩ := hd
    by_cases hk : k' = k
    · subst hk
      simp [getField] at h
      simp [h]
    · simp only [getField, if_neg hk] at h
      exact List.mem_cons_of_mem _ (ih h)

theorem setKey_keys (fs : Fields) (k : String) (v : Value) :
    (setKey fs k v).map Prod.fst
      = if k ∈ fs.map Prod.fst then fs.map Prod.fst else fs.map Prod.fst ++ [k] := by
  induction fs with
  | nil => simp [setKey]
  | cons hd tl ih =>
    obtain ⟨k', v'⟩ := hd
    by_cases h : k' = k
    · subst h
      simp [setKey]
    · have h' : ¬(k = k') := fun hh => h hh.symm
      by_cases h2 : k ∈ tl.map Prod.fst <;> simp [setKey, h, h', h2, ih]

theorem setKey_nodup (fs : Fields) (k : String) (v : Value)
    (h : (fs.map Prod.fst).Nodup) : ((setKey fs k v).map Prod.fst).Nodup := by
  rw [setKey_keys]
  by_cases hmem : k ∈ fs.map Prod.fst
  · simpa [hmem] using h
  · simp only [if_neg hmem]
    simpa [List.nodup_append, hmem] using h

/-! ### Bucket lemmas -/

theorem bucket_fold_lookup (row : Row) (drop : Bool) (s : String) :
    ∀ (cols : List String) (acc : Fields),
    getField
      (cols.foldl
        (fun acc col =>
          match survivingVal row drop col with
          | none => acc
          | some v => setKey acc (_slugify col) v)
        acc) s
    = cols.foldl
        (fun b c =>
          if _slugify c = s then
            match survivingVal row drop c with
            | some v => some v
            | none => b
          else b)
        (getField acc s) := by
  intro cols
  induction cols with
  | nil => intro acc; rfl
  | cons c rest ih =>
    intro acc
    simp only [List.foldl_cons]
    cases hsv : survivingVal row drop c with
    | none =>
      rw [ih]
      congr 1
      simp [hsv]
    | some v =>
      rw [ih]
      congr 1
      by_cases hs : _slugify c = s
      · rw [hs, getField_setKey_self]
        simp [hsv, hs]
      · have hs' : s ≠ _slugify c := fun hh => hs hh.symm
        rw [getField_setKey_other _ _ _ _ hs']
        simp [hsv, hs]

theorem bucket_lookup (row : Row) (drop : Bool) (cols : List String) (s : String) :
    getField (buildBucket row drop cols) s = lastSurviving row drop s cols := by
  unfold buildBucket lastSurviving
  rw [bucket_fold_lookup]
  rfl

theorem bucket_fold_nodup (row : Row) (drop : Bool) :
    ∀ (cols : List String) (acc : Fields), (acc.map Prod.fst).Nodup →
    (((cols.foldl
        (fun acc col =>
          match survivingVal row drop col with
          | none => acc
          | some v => setKey acc (_slugify col) v)
        acc)).map Prod.fst).Nodup := by
  intro cols
  induction cols with
  | nil => intro acc h; exact h
  | cons c rest ih =>
    intro acc h
    simp only [List.foldl_cons]
    cases hsv : survivingVal row drop c with
    | none => simpa [hsv] using ih acc h
    | some v => simpa [hsv] using ih _ (setKey_nodup acc _ v h)

theorem bucket_nodup (row : Row) (drop : Bool) (cols : List String) :
    ((buildBucket row drop cols).map Prod.fst).Nodup := by
  unfold buildBucket
  exact bucket_fold_nodup row drop cols [] (by simp)

theorem lastSurviving_some (row : Row) (drop : Bool) (s : String) :
    ∀ (cols : List String) (b : Option Value) (v : Value),
    (cols.foldl
      (fun b c =>
        if _slugify c = s then
          match survivingVal row drop c with
          | some v => some v
          | none => b
        else b)
      b) = some v →
    (∃ c ∈ cols, survivingVal row drop c = some v) ∨ b = some v := by
  intro cols
  induction cols with
  | nil => intro b v h; exact Or.inr h
  | cons c rest ih =>
    intro b v h
    simp only [List.foldl_cons] at h
    rcases ih _ v h with ⟨c', hc', hv'⟩ | hb
    · exact Or.inl ⟨c', List.mem_cons_of_mem _ hc', hv'⟩
    · by_cases hs : _slugify c = s
      · cases hsv : survivingVal row drop c with
        | none =>
          simp [hs, hsv] at hb
          exact Or.inr (by rw [hb])
        | some w =>
          simp [hs, hsv] at hb
          exact Or.inl ⟨c, List.mem_cons_self _ _, by rw [hsv, hb]⟩
      · rw [if_neg hs] at hb
        exact Or.inr hb

theorem survivingVal_not_vnone (row : Row) (drop : Bool) (c : String) (v : Value)
    (h : survivingVal row drop c = some v) : v ≠ .vnone := by
  unfold survivingVal at h
  cases hval : rowGet row c <;> rw [hval] at h <;> simp [pdIsna] at h
  · rw [← h.2]; simp
  all_goals rw [← h]; simp

theorem survivingVal_drop_not_empty (row : Row) (c : String) (v : Value)
    (h : survivingVal row true c = some v) : v ≠ .str "" := by
  unfold survivingVal at h
  cases hval : rowGet row c <;> rw [hval] at h <;> simp [pdIsna] at h
  · obtain ⟨h1, h2⟩ := h
    rw [← h2]
    simp only [ne_eq, Value.str.injEq]
    intro hh
    rw [hh] at h1
    exact absurd h1 (by decide)
  all_goals rw [← h]; simp

/-! ### Mapping-step lemmas -/

theorem stepMap_flag (row : Row) (fs : Fields) (path : String) (rule : Rule) :
    stepMap row true fs path rule = stepMap row false fs path rule := by
  unfold stepMap
  cases h : isEmptyish (resolveVal row rule) <;> simp [h]

theorem applyMapping_flag (row : Row) (m : List (String × Rule)) :
    applyMapping row true m = applyMapping row false m := by
  unfold applyMapping
  suffices h : ∀ fs, m.foldl (fun fs pr => stepMap row true fs pr.1 pr.2) fs
      = m.foldl (fun fs pr => stepMap row false fs pr.1 pr.2) fs from h []
  induction m with
  | nil => intro fs; rfl
  | cons pr rest ih =>
    intro fs
    simp only [List.foldl_cons, stepMap_flag, ih]

theorem stepMap_shape (row : Row) (drop : Bool) (fs : Fields) (path : String) (rule : Rule) :
    stepMap row drop fs path rule = fs
    ∨ ∃ v, isEmptyish v = false ∧ stepMap row drop fs path rule = _set_deep fs path v := by
  unfold stepMap
  cases h : isEmptyish (resolveVal row rule) with
  | true => left; cases drop <;> simp [h]
  | false => right; exact ⟨resolveVal row rule, h, by cases drop <;> simp [h]⟩

/-! ### Claim C2 -/

/-- C2 counterexample: with `drop_empty=false`, a present but
whitespace-only passthrough cell is written into `x-extra` as the empty
string — an emitted record does contain a field whose value is `""`,
contrary to the claim that absent/empty source values are omitted
identically under both flag settings. -/
theorem c2_counterexample :
    build_records ⟨[], ["A"], [], false⟩ [[("A", Value.str " ")]]
      = .ok [.obj [("x-extra", .obj [("a", .str "")])]] := by decide

/-- C2 (amended): mapped fields behave identically under both
`drop_empty` settings and a mapping rule either writes nothing or writes a
non-`None`, non-empty value; the passthrough bucket never holds `None`,
and with `drop_empty=true` it never holds the empty string either — but
with `drop_empty=false` an empty-after-strip string passthrough value is
written as `""` (see the counterexample). -/
theorem c2_empty_handling :
    (∀ (row : Row) (m : List (String × Rule)),
      applyMapping row true m = applyMapping row false m)
    ∧ (∀ (row : Row) (drop : Bool) (fs : Fields) (path : String) (rule : Rule),
        stepMap row drop fs path rule = fs
        ∨ ∃ v, isEmptyish v = false ∧ stepMap row drop fs path rule = _set_deep fs path v)
    ∧ (∀ (row : Row) (drop : Bool) (cols : List String) (s : String) (v : Value),
        getField (buildBucket row drop cols) s = some v → v ≠ .vnone)
    ∧ (∀ (row : Row) (cols : List String) (s : String) (v : Value),
        getField (buildBucket row true cols) s = some v → v ≠ .str "") := by
  refine ⟨applyMapping_flag, stepMap_shape, ?_, ?_⟩
  · intro row drop cols s v h
    rw [bucket_lookup] at h
    unfold lastSurviving at h
    rcases lastSurviving_some row drop s cols none v h with ⟨c, _, hc⟩ | hnone
    · exact survivingVal_not_vnone row drop c v hc
    · exact absurd hnone (by simp)
  · intro row cols s v h
    rw [bucket_lookup] at h
    unfold lastSurviving at h
    rcases lastSurviving_some row true s cols none v h with ⟨c, _, hc⟩ | hnone
    · exact survivingVal_drop_not_empty row c v hc
    · exact absurd hnone (by simp)

/-- C2 witness: the theorem applied at concrete inputs. -/
theorem c2_witness :
    applyMapping [("A", Value.str " s1 ")] true [("id", Rule.colRef "A")]
      = applyMapping [("A", Value.str " s1 ")] false [("id", Rule.colRef "A")]
    ∧ Value.str "x" ≠ Value.vnone :=
  ⟨c2_empty_handling.1 [("A", Value.str " s1 ")] [("id", Rule.colRef "A")],
   c2_empty_handling.2.2.1 [("A", Value.str "x")] true ["A"] "a" (Value.str "x") (by decide)⟩

/-! ### Claim C10 -/

/-- C10 counterexample: columns `"A"` and `"a"` both slug to `"a"` and both
hold present (non-NA) values, but with `drop_empty=true` the later column's
whitespace value is filtered out, so the bucket keeps the EARLIER column's
value `"x"` — not the later column's value as claimed. -/
theorem c10_counterexample :
    _slugify "A" = _slugify "a"
    ∧ pdIsna (rowGet [("A", Value.str "x"), ("a", Value.str " ")] "A") = false
    ∧ pdIsna (rowGet [("A", Value.str "x"), ("a", Value.str " ")] "a") = false
    ∧ build_records ⟨[], ["A", "a"], [], true⟩ [[("A", Value.str "x"), ("a", Value.str " ")]]
      = .ok [.obj [("x-extra", .obj [("a", .str "x")])]] := by decide

/-- C10 (amended): the bucket's keys are duplicate-free (one entry per
slug), and the entry under slug `s` holds the value of the last column in
passthrough order that slugs to `s` AND survives the emptiness filter;
a later duplicate-slug column whose value is filtered out (absent, or
blank-after-strip under `drop_empty`) leaves the earlier survivor in
place. -/
theorem c10_lastwins_bucket :
    (∀ (row : Row) (drop : Bool) (cols : List String) (s : String),
      getField (buildBucket row drop cols) s = lastSurviving row drop s cols)
    ∧ (∀ (row : Row) (drop : Bool) (cols : List String),
      ((buildBucket row drop cols).map Prod.fst).Nodup) :=
  ⟨bucket_lookup, bucket_nodup⟩

/-! ### Geolocation lemmas -/

theorem getField_key_mem {fs : Fields} {k : String} {v : Value}
    (h : getField fs k = some v) : k ∈ fs.map Prod.fst :=
  List.mem_map_of_mem Prod.fst (getField_mem h)

theorem geoStep_no_match (acc : Fields) (k : String)
    (h : strContains geoSub k = false) : geoStep acc k = acc := by
  unfold geoStep
  simp [h]

theorem geoStep_preserve (acc : Fields) (k k' : String) (hk : k' ≠ "geolocation") :
    getField (geoStep acc k) k' = getField acc k' := by
  unfold geoStep
  cases hcon : strContains geoSub k with
  | false => rfl
  | true =>
    simp only [if_true]
    cases hval : getField acc k with
    | none => rfl
    | some v =>
      cases v with
      | str raw =>
        dsimp only
        cases hp : geoParse raw with
        | none => rfl
        | some p =>
          obtain ⟨lat, lon⟩ := p
          exact getField_setKey_other acc "geolocation" k' _ hk
      | vnone => rfl
      | nan => rfl
      | num _ => rfl
      | bool _ => rfl
      | date _ _ _ _ _ _ => rfl
      | obj _ => rfl
      | arr _ => rfl

theorem geoFold_preserve (ks : List String) :
    ∀ (acc : Fields) (k' : String), k' ≠ "geolocation" →
    getField (ks.foldl geoStep acc) k' = getField acc k' := by
  induction ks with
  | nil => intro acc k' _; rfl
  | cons k rest ih =>
    intro acc k' hk
    simp only [List.foldl_cons]
    rw [ih _ _ hk, geoStep_preserve _ _ _ hk]

theorem geoFold_id_nomatch (l : List String) :
    ∀ (acc : Fields), (∀ x ∈ l, strContains geoSub x = false) →
    l.foldl geoStep acc = acc := by
  induction l with
  | nil => intro acc _; rfl
  | cons k rest ih =>
    intro acc h
    simp only [List.foldl_cons]
    rw [geoStep_no_match _ _ (h k (List.mem_cons_self _ _)),
      ih _ (fun x hx => h x (List.mem_cons_of_mem _ hx))]

theorem geoFold_fix (bucket : Fields) (h : ∀ k, geoStep bucket k = bucket) :
    ∀ (ks : List String), ks.foldl geoStep bucket = bucket := by
  intro ks
  induction ks with
  | nil => rfl
  | cons k rest ih =>
    simp only [List.foldl_cons, h k, ih]

/-! ### Claim C4 -/

/-- C4: on a bucket whose only pattern-matching key `k` holds a string that
splits on `,` into exactly two float-parsable tokens, enrichment adds
`geolocation = {lat, lon}` while keeping the raw entry; when every
pattern-matching key's value is a non-string or a string that fails to
parse, the bucket is unchanged — no `geolocation` key is added, whatever
unrelated non-matching values look like — and the step is total, no
exception; and enrichment never disturbs any key other than
`geolocation`. -/
theorem c4_geolocation :
    (∀ (bucket : Fields) (k raw : String) (lat lon : ℚ),
      ((bucket.map Prod.fst).Nodup) →
      getField bucket k = some (.str raw) →
      strContains geoSub k = true →
      ((bucket.map Prod.fst).all fun k' => k' = k || !strContains geoSub k') = true →
      geoParse raw = some (lat, lon) →
      getField (geoEnrich bucket) "geolocation"
          = some (.obj [("lat", .num lat), ("lon", .num lon)])
        ∧ getField (geoEnrich bucket) k = some (.str raw))
    ∧ (∀ (bucket : Fields),
        (bucket.all fun kv =>
          !strContains geoSub kv.1 ||
          match kv.2 with
          | .str raw => (geoParse raw).isNone
          | _ => true) = true →
        geoEnrich bucket = bucket)
    ∧ (∀ (bucket : Fields) (k' : String), k' ≠ "geolocation" →
        getField (geoEnrich bucket) k' = getField bucket k') := by
  refine ⟨?_, ?_, ?_⟩
  · intro bucket k raw lat lon hnodup hval hcon hall hp
    have hkne : k ≠ "geolocation" := by
      intro he
      rw [he] at hcon
      exact absurd hcon (by decide)
    obtain ⟨l1, l2, heq⟩ := List.append_of_mem (getField_key_mem hval)
    have hnodup' := heq ▸ hnodup
    have hk1 : k ∉ l1 := by
      intro hm
      exact (List.disjoint_of_nodup_append hnodup') hm (List.mem_cons_self _ _)
    have hk2 : k ∉ l2 := by
      have := (List.nodup_append.mp hnodup').2.1
      exact (List.nodup_cons.mp this).1
    have hallmem : ∀ x ∈ bucket.map Prod.fst, x = k ∨ strContains geoSub x = false := by
      intro x hx
      have := (List.all_eq_true.mp hall) x hx
      rcases Bool.or_eq_true_iff.mp this with h1 | h2
      · exact Or.inl (by simpa using h1)
      · exact Or.inr (by simpa using h2)
    have hstep : geoStep bucket k
        = setKey bucket "geolocation" (.obj [("lat", .num lat), ("lon", .num lon)]) := by
      unfold geoStep
      simp [hcon, hval, hp]
    have henr : geoEnrich bucket
        = setKey bucket "geolocation" (.obj [("lat", .num lat), ("lon", .num lon)]) := by
      unfold geoEnrich
      rw [heq, List.foldl_append]
      rw [geoFold_id_nomatch l1 bucket (fun x hx => by
        rcases hallmem x (heq ▸ List.mem_append_left _ hx) with h1 | h2
        · exact absurd (h1 ▸ hx) hk1
        · exact h2)]
      simp only [List.foldl_cons]
      rw [hstep]
      exact geoFold_id_nomatch l2 _ (fun x hx => by
        rcases hallmem x (heq ▸ List.mem_append_right _ (List.mem_cons_of_mem _ hx)) with h1 | h2
        · exact absurd (h1 ▸ hx) hk2
        · exact h2)
    rw [henr]
    exact ⟨getField_setKey_self _ _ _,
      by rw [getField_setKey_other _ _ _ _ hkne]; exact hval⟩
  · intro bucket hall
    have hstep : ∀ k, geoStep bucket k = bucket := by
      intro k
      unfold geoStep
      cases hcon : strContains geoSub k with
      | false => rfl
      | true =>
        simp only [if_true]
        cases hval : getField bucket k with
        | none => rfl
        | some v =>
          have hmem := getField_mem hval
          have hkv := (List.all_eq_true.mp hall) _ hmem
          rw [hcon] at hkv
          simp only [Bool.not_true, Bool.false_or] at hkv
          cases v with
          | str raw =>
            simp only [Option.isNone_iff_eq_none] at hkv
            dsimp only
            rw [hkv]
          | vnone => rfl
          | nan => rfl
          | num _ => rfl
          | bool _ => rfl
          | date _ _ _ _ _ _ => rfl
          | obj _ => rfl
          | arr _ => rfl
    exact geoFold_fix bucket hstep _
  · intro bucket k' hk
    exact geoFold_preserve _ bucket k' hk

/-- C4 witness: the success branch applied to the concrete bucket from the
spec scenario; the failure branch applied to `"not-a-pair"` alone, and to
`"not-a-pair"` next to an unrelated non-matching column whose value does
parse as two floats — the bucket is still unchanged. -/
theorem c4_witness :
    (getField (geoEnrich [("geolocation-latitude--longitude", Value.str "37.77, -122.42")])
        "geolocation"
      = some (.obj [("lat", .num (mkRat 3777 100)), ("lon", .num (mkRat (-12242) 100))])
      ∧ getField (geoEnrich [("geolocation-latitude--longitude", Value.str "37.77, -122.42")])
          "geolocation-latitude--longitude"
        = some (.str "37.77, -122.42"))
    ∧ geoEnrich [("geolocation-latitude--longitude", Value.str "not-a-pair")]
      = [("geolocation-latitude--longitude", Value.str "not-a-pair")]
    ∧ geoEnrich [("geolocation-latitude--longitude", Value.str "not-a-pair"),
        ("budget", Value.str "12, 34")]
      = [("geolocation-latitude--longitude", Value.str "not-a-pair"),
        ("budget", Value.str "12, 34")] :=
  ⟨c4_geolocation.1 [("geolocation-latitude--longitude", Value.str "37.77, -122.42")]
      "geolocation-latitude--longitude" "37.77, -122.42" (mkRat 3777 100) (mkRat (-12242) 100)
      (by decide) (by decide) (by decide) (by decide) (by decide),
   c4_geolocation.2.1 [("geolocation-latitude--longitude", Value.str "not-a-pair")] (by decide),
   c4_geolocation.2.1 [("geolocation-latitude--longitude", Value.str "not-a-pair"),
      ("budget", Value.str "12, 34")] (by decide)⟩

/-! ### ISO-format lemmas -/

theorem digitChar_mod_isDigit (n : ℕ) : (Nat.digitChar (n % 10)).isDigit = true := by
  have h : n % 10 < 10 := Nat.mod_lt _ (by norm_num)
  revert h
  generalize n % 10 = r
  intro h
  interval_cases r <;> decide

theorem isoformat_iso (y m d h mi s : ℕ) : isIsoDT (isoformat y m d h mi s) = true := by
  unfold isIsoDT isoformat pad4 pad2
  simp [digitChar_mod_isDigit]

/-! ### Claim C8 -/

/-- C8: the JSON serialization fallback encodes every date/time-typed value
as an ISO-8601 string (`DDDD-DD-DDTDD:DD:DD`), and every other value as its
string form; it is a total function, never an exception. -/
theorem c8_json_default :
    (∀ (y m d h mi s : ℕ),
      _json_default (.date y m d h mi s) = .str (isoformat y m d h mi s)
      ∧ isIsoDT (isoformat y m d h mi s) = true)
    ∧ (∀ (o : Value), isDateV o = false → _json_default o = .str (pyStr o)) := by
  constructor
  · intro y m d h mi s
    exact ⟨rfl, isoformat_iso y m d h mi s⟩
  · intro o ho
    cases o <;> first | rfl | simp [isDateV] at ho

/-- C8 witness: the fallback applied to a non-date value. -/
theorem c8_witness : _json_default (Value.num 1) = .str (pyStr (Value.num 1)) :=
  c8_json_default.2 (Value.num 1) (by decide)

/-! ### Claim C9 -/

/-- C9: when a mapping rule has left a non-dict value at the exact key
`x-extra` and the passthrough bucket is non-empty, the merge
`obj.setdefault("x-extra", {}).update(xextra)` raises instead of returning
a record, and the whole batch aborts. -/
theorem c9_xextra_merge_error :
    ∀ (cfg : Config) (row : Row) (v : Value),
      rowMissing cfg.required_fields row = false →
      getField (applyMapping row cfg.drop_empty cfg.mapping) "x-extra" = some v →
      isObjV v = false →
      (geoEnrich (buildBucket row cfg.drop_empty cfg.passthrough_cols)).isEmpty = false →
      buildRow cfg row = .error () := by
  intro cfg row v hmiss hx hobj hne
  unfold buildRow
  rw [hmiss]
  simp only [Bool.false_eq_true, if_false]
  rw [hne]
  simp only [Bool.false_eq_true, if_false]
  rw [hx]
  cases v <;> simp [isObjV] at hobj ⊢

/-- C9 witness: the error branch reached from `buildRow` at a concrete
configuration and row. -/
theorem c9_witness :
    buildRow ⟨[("x-extra", .constV (.num 5))], ["A"], [], false⟩ [("A", Value.str "hi")]
      = .error () :=
  c9_xextra_merge_error ⟨[("x-extra", .constV (.num 5))], ["A"], [], false⟩
    [("A", Value.str "hi")] (.num 5) (by decide) (by decide) (by decide) (by decide)

/-! ### Claim C6 -/

/-- C6: whenever `build_records` returns, the returned records are exactly
the per-row results of the surviving rows, in input row order
(a `filterMap`); and with `array_name="services"` two built records wrap as
`{"services": [rec1, rec2]}` in row order. -/
theorem c6_order_and_wrapping :
    (∀ (cfg : Config) (rows : List Row) (recs : List Value),
      build_records cfg rows = .ok recs →
      recs = rows.filterMap fun r =>
        match buildRow cfg r with
        | .ok (some j) => some j
        | _ => none)
    ∧ build_records ⟨[("id", .colRef "ID")], [], [], false⟩
        [[("ID", Value.str "r1")], [("ID", Value.str "r2")]]
      = .ok [.obj [("id", .str "r1")], .obj [("id", .str "r2")]]
    ∧ wrapOutput (some "services") [.obj [("id", .str "r1")], .obj [("id", .str "r2")]]
      = .obj [("services", .arr [.obj [("id", .str "r1")], .obj [("id", .str "r2")]])] := by
  refine ⟨?_, by decide, by decide⟩
  intro cfg rows
  induction rows with
  | nil =>
    intro recs h
    simp only [build_records] at h
    simp [← Except.ok.inj h]
  | cons r rest ih =>
    intro recs h
    unfold build_records at h
    cases hb : buildRow cfg r with
    | error e =>
      rw [hb] at h
      exact absurd h (by simp)
    | ok o =>
      cases hr : build_records cfg rest with
      | error e =>
        rw [hb, hr] at h
        cases o <;> exact absurd h (by simp)
      | ok recs' =>
        rw [hb, hr] at h
        cases o with
        | none =>
          rw [← Except.ok.inj h]
          simp only [List.filterMap_cons, hb]
          exact ih recs' hr
        | some j =>
          rw [← Except.ok.inj h]
          simp only [List.filterMap_cons, hb]
          rw [ih recs' hr]

/-- C6 witness: the order statement applied to a concrete two-row batch. -/
theorem c6_witness :
    [Value.obj [("id", Value.str "r1")], Value.obj [("id", Value.str "r2")]]
      = [[("ID", Value.str "r1")], [("ID", Value.str "r2")]].filterMap
          (fun r =>
            match buildRow ⟨[("id", Rule.colRef "ID")], [], [], false⟩ r with
            | .ok (some j) => some j
            | _ => none) :=
  c6_order_and_wrapping.1 ⟨[("id", Rule.colRef "ID")], [], [], false⟩
    [[("ID", Value.str "r1")], [("ID", Value.str "r2")]]
    [Value.obj [("id", Value.str "r1")], Value.obj [("id", Value.str "r2")]] (by decide)

/-! ### Row-shape lemmas -/

theorem buildRow_skip (cfg : Config) (row : Row)
    (h : rowMissing cfg.required_fields row = true) : buildRow cfg row = .ok none := by
  unfold buildRow
  rw [h]
  simp

theorem buildRow_not_none (cfg : Config) (row : Row)
    (h : rowMissing cfg.required_fields row = false) : buildRow cfg row ≠ .ok none := by
  unfold buildRow
  rw [h]
  simp only [Bool.false_eq_true, if_false]
  by_cases hbe : (geoEnrich (buildBucket row cfg.drop_empty cfg.passthrough_cols)).isEmpty
  · simp [hbe]
  · cases hgf : getField (applyMapping row cfg.drop_empty cfg.mapping) "x-extra" with
    | none => simp [hbe, hgf]
    | some v => cases v <;> simp [hbe, hgf]

/-! ### Claim C1 -/

/-- C1 counterexample: a row whose required columns are all satisfied still
produces no record — with a mapping that writes a non-dict at `x-extra` and
a non-empty passthrough bucket, the batch raises instead of emitting
exactly one record. -/
theorem c1_counterexample :
    rowMissing ([] : List String) [("A", Value.str "hi")] = false
    ∧ build_records ⟨[("x-extra", .constV (.num 5))], ["A"], [], false⟩
        [[("A", Value.str "hi")]]
      = .error () := by decide

/-- C1 (amended): a row failing the required gate is skipped before any
mapping is applied (for every configuration); and whenever the batch
returns normally, it returns exactly one record per gate-passing row — the
only exception being the `x-extra` merge error, which aborts the whole
batch (see the counterexample). -/
theorem c1_gate_and_count :
    (∀ (cfg : Config) (row : Row),
      rowMissing cfg.required_fields row = true → buildRow cfg row = .ok none)
    ∧ (∀ (cfg : Config) (rows : List Row) (recs : List Value),
      build_records cfg rows = .ok recs →
      recs.length = (rows.filter fun r => !rowMissing cfg.required_fields r).length) := by
  refine ⟨buildRow_skip, ?_⟩
  intro cfg rows
  induction rows with
  | nil =>
    intro recs h
    simp only [build_records] at h
    simp [← Except.ok.inj h]
  | cons r rest ih =>
    intro recs h
    unfold build_records at h
    cases hb : buildRow cfg r with
    | error e =>
      rw [hb] at h
      exact absurd h (by simp)
    | ok o =>
      cases hr : build_records cfg rest with
      | error e =>
        rw [hb, hr] at h
        cases o <;> exact absurd h (by simp)
      | ok recs' =>
        rw [hb, hr] at h
        cases o with
        | none =>
          have hmiss : rowMissing cfg.required_fields r = true := by
            by_contra hc
            exact buildRow_not_none cfg r (Bool.not_eq_true _ ▸ Bool.of_not_eq_true hc) hb
          rw [← Except.ok.inj h]
          simp [List.filter_cons, hmiss, ih recs' hr]
        | some j =>
          have hmiss : rowMissing cfg.required_fields r = false := by
            by_contra hc
            have := buildRow_skip cfg r (Bool.of_not_eq_false hc)
            rw [hb] at this
            exact absurd (Except.ok.inj this) (by simp)
          rw [← Except.ok.inj h]
          simp [List.filter_cons, hmiss, ih recs' hr]

/-- C1 witness: the gate applied to a blank required cell, and the count
applied to a two-row batch with one skipped row. -/
theorem c1_witness :
    buildRow ⟨[("id", Rule.colRef "ID")], [], ["ID"], false⟩ [("ID", Value.str " ")] = .ok none
    ∧ (1 : ℕ)
      = ([[("ID", Value.str "r1")], [("ID", Value.str "")]].filter fun r =>
          !rowMissing ["ID"] r).length :=
  ⟨c1_gate_and_count.1 ⟨[("id", Rule.colRef "ID")], [], ["ID"], false⟩
      [("ID", Value.str " ")] (by decide),
   by
    have hc := c1_gate_and_count.2 ⟨[("id", Rule.colRef "ID")], [], ["ID"], false⟩
      [[("ID", Value.str "r1")], [("ID", Value.str "")]]
      [Value.obj [("id", Value.str "r1")]] (by decide)
    simpa using hc⟩

/-! ### Claim C7 -/

/-- C7 counterexample: a configuration with an empty mapping path is
accepted — no configuration error is raised, the batch runs, and the rule
writes a field keyed by the empty string. -/
theorem c7_counterexample :
    build_records ⟨[("", .colRef "A")], [], [], false⟩ [[("A", Value.str "x")]]
      = .ok [.obj [("", .str "x")]] := by decide

/-- C7 (amended): the code performs no configuration validation. An empty
target path splits to the single key `""` and is handled as an ordinary
assignment at the key `""` (or skipped for an empty value) — nothing fails
before or during row processing; malformed `array_name`/`mapping` types are
not representable in the typed embedding and are not checked by the code
before rows are processed. -/
theorem c7_no_validation :
    pathKeys "" = [""]
    ∧ (∀ (row : Row) (drop : Bool) (fs : Fields) (rule : Rule),
        stepMap row drop fs "" rule = fs
        ∨ ∃ v, isEmptyish v = false ∧ stepMap row drop fs "" rule = setKey fs "" v) := by
  constructor
  · decide
  · intro row drop fs rule
    rcases stepMap_shape row drop fs "" rule with h | ⟨v, hv, h⟩
    · exact Or.inl h
    · right
      refine ⟨v, hv, ?_⟩
      rw [h]
      unfold _set_deep
      rw [show pathKeys "" = [""] from by decide]
      rfl

/-! ### Slug lemmas -/

theorem noAdj_tail (c : Char) (cs : List Char) (h : noAdj (c :: cs) = true) :
    noAdj cs = true := by
  cases cs with
  | nil => rfl
  | cons d rest =>
    simp only [noAdj, Bool.and_eq_true] at h
    exact h.2

theorem collapse_eq_map_aux :
    ∀ (n : ℕ) (l : List Char), l.length ≤ n → noAdj l = true →
    collapseCh false l = l.map mapCh := by
  intro n
  induction n with
  | zero =>
    intro l hl _
    rw [List.eq_nil_of_length_eq_zero (Nat.le_zero.mp hl)]
    rfl
  | succ n ih =>
    intro l hl hadj
    cases l with
    | nil => rfl
    | cons c cs =>
      by_cases hc : c.isAlphanum
      · have hlen : cs.length ≤ n := by
          simp only [List.length_cons] at hl
          omega
        simp only [collapseCh, hc, if_true, List.map_cons]
        rw [ih cs hlen (noAdj_tail c cs hadj)]
        simp [mapCh, hc]
      · cases cs with
        | nil => simp [collapseCh, hc, mapCh]
        | cons d rest =>
          have hd : d.isAlphanum = true := by
            simp only [noAdj, Bool.and_eq_true, Bool.or_eq_true] at hadj
            rcases hadj.1 with h1 | h1
            · exact absurd h1 hc
            · exact h1
          have hrest : noAdj rest = true := noAdj_tail d rest (noAdj_tail c (d :: rest) hadj)
          have hlen : rest.length ≤ n := by
            simp only [List.length_cons] at hl
            omega
          rw [show collapseCh false (c :: d :: rest) = '-' :: d.toLower :: collapseCh false rest
            from by simp [collapseCh, hc, hd]]
          rw [ih rest hlen hrest]
          simp [mapCh, hc, hd]

/-! ### Claim C3 -/

/-- C3 counterexample: in `"a !b"` the two adjacent non-alphanumeric
characters each become their own hyphen — the implemented slug is
`"a--b"`, not the collapsed `"a-b"` the claim describes. -/
theorem c3_counterexample :
    _slugify "a !b" = "a--b" ∧ slugSpec "a !b" = "a-b"
    ∧ _slugify "a !b" ≠ slugSpec "a !b" := by decide

/-- C3 (amended): the slug lowercases alphanumerics and replaces each
single non-alphanumeric character by its own hyphen (runs are NOT
collapsed), then strips leading/trailing hyphens. The collapsed-run form of
the claim coincides with the implementation exactly on column names without
two adjacent non-alphanumeric characters; e.g. `"Data Center (Region)"`
slugs to `"data-center--region"` with the double hyphen the spec's own
example shows. -/
theorem c3_slug_amended :
    (∀ (key : String), noAdj key.data = true → _slugify key = slugSpec key)
    ∧ _slugify "Data Center (Region)" = "data-center--region" := by
  constructor
  · intro key h
    unfold _slugify slugSpec
    rw [collapse_eq_map_aux key.data.length key.data le_rfl h]
  · decide

/-- C3 witness: the amended equivalence applied to a name with no adjacent
non-alphanumerics. -/
theorem c3_witness : _slugify "Data Center" = slugSpec "Data Center" :=
  c3_slug_amended.1 "Data Center" (by decide)

/-! ### Path-writer lemmas -/

theorem splitChar_ne_nil (sep : Char) : ∀ (l : List Char), splitChar sep l ≠ [] := by
  intro l
  induction l with
  | nil => simp [splitChar]
  | cons c cs ih =>
    simp only [splitChar]
    by_cases h : c = sep
    · simp [h]
    · simp only [h, if_false]
      cases hr : splitChar sep cs with
      | nil => simp
      | cons a t => simp

theorem pathKeys_ne_nil (p : String) : pathKeys p ≠ [] := by
  unfold pathKeys
  intro h
  exact splitChar_ne_nil '.' p.data (List.map_eq_nil_iff.mp h)

theorem setD_nil_spine (k : String) (ks : List String) (v : Value) :
    setD [] (k :: ks) v = [(k, payload ks v)] := by
  induction ks generalizing k with
  | nil => rfl
  | cons k2 rest ih =>
    simp only [setD, getField, subObj, setKey, payload]
    rw [ih k2]

theorem payload_cons_obj (k : String) (ks : List String) (v : Value) :
    payload (k :: ks) v = .obj (setD [] (k :: ks) v) := by
  rw [setD_nil_spine]
  rfl

theorem setD_single_other (a b : String) (X : Value) (qs : List String) (w : Value)
    (hba : b ≠ a) :
    setD [(a, X)] (b :: qs) w = [(a, X), (b, payload qs w)] := by
  have hab : ¬(a = b) := fun h => hba h.symm
  cases qs with
  | nil => simp [setD, setKey, hab, payload]
  | cons q2 rest =>
    simp only [setD, getField, subObj, setKey, hab, if_false]
    rw [payload_cons_obj]

theorem setD_single_same (a : String) (S : Fields) (q2 : String) (qs : List String) (w : Value) :
    setD [(a, .obj S)] (a :: q2 :: qs) w = [(a, .obj (setD S (q2 :: qs) w))] := by
  simp [setD, getField, subObj, setKey]

theorem sortFields_pair (a b : String) (x y : Value) (hab : a ≠ b) :
    sortFields [(a, x), (b, y)] = sortFields [(b, y), (a, x)] := by
  simp only [sortFields, insertField]
  by_cases h : a ≤ b
  · have h2 : ¬(b ≤ a) := fun hba => hab (le_antisymm h hba)
    simp [h, h2]
  · have h2 : b ≤ a := le_of_not_le h
    simp [h, h2]

theorem norm_obj (fs : Fields) : Value.norm (.obj fs) = .obj (sortFields (normFields fs)) := by
  simp [Value.norm]

theorem setD_comm_aux :
    ∀ (p : List String), ∀ (q : List String), p ≠ [] → q ≠ [] →
    isLeading p q = false → isLeading q p = false → ∀ (v w : Value),
    sortFields (normFields (setD (setD [] p v) q w))
      = sortFields (normFields (setD (setD [] q w) p v)) := by
  intro p
  induction p with
  | nil => intro q hp; exact absurd rfl hp
  | cons a ps ih =>
    intro q hp hq hpq hqp v w
    cases q with
    | nil => exact absurd rfl hq
    | cons b qs =>
      by_cases hab : a = b
      · subst hab
        have hpq' : isLeading ps qs = false := by simpa [isLeading] using hpq
        have hqp' : isLeading qs ps = false := by simpa [isLeading] using hqp
        have hps : ps ≠ [] := by
          intro he
          rw [he] at hpq'
          simp [isLeading] at hpq'
        have hqs : qs ≠ [] := by
          intro he
          rw [he] at hqp'
          simp [isLeading] at hqp'
        obtain ⟨p2, ps', rfl⟩ := List.exists_cons_of_ne_nil hps
        obtain ⟨q2, qs', rfl⟩ := List.exists_cons_of_ne_nil hqs
        have inner := ih (q2 :: qs') hps hqs hpq' hqp' v w
        have l1 : setD [] (a :: p2 :: ps') v = [(a, Value.obj (setD [] (p2 :: ps') v))] := by
          rw [setD_nil_spine, payload_cons_obj]
        have l2 : setD [] (a :: q2 :: qs') w = [(a, Value.obj (setD [] (q2 :: qs') w))] := by
          rw [setD_nil_spine, payload_cons_obj]
        rw [l1, l2, setD_single_same, setD_single_same]
        simp only [normFields, sortFields, insertField, norm_obj]
        rw [inner]
      · have hba : b ≠ a := fun h => hab h.symm
        rw [setD_nil_spine a ps v, setD_nil_spine b qs w,
          setD_single_other a b _ qs w hba, setD_single_other b a _ ps v hab]
        simp only [normFields]
        exact sortFields_pair a b _ _ hab

/-! ### Claim C5 -/

/-- C5: for independent dot paths (neither key sequence an initial segment
of the other), the two assignment orders from the empty object produce the
same record up to Python dict equality (key-sorted normal form); in
particular `a.b := 1` and `a.c := 2` in either order give
`{"a": {"b": 1, "c": 2}}`, the sibling paths sharing one nested object. -/
theorem c5_set_deep_comm :
    (∀ (p q : String) (v w : Value),
      isLeading (pathKeys p) (pathKeys q) = false →
      isLeading (pathKeys q) (pathKeys p) = false →
      Value.norm (.obj (_set_deep (_set_deep [] p v) q w))
        = Value.norm (.obj (_set_deep (_set_deep [] q w) p v)))
    ∧ Value.norm (.obj (_set_deep (_set_deep [] "a.b" (.num 1)) "a.c" (.num 2)))
      = .obj [("a", .obj [("b", .num 1), ("c", .num 2)])]
    ∧ Value.norm (.obj (_set_deep (_set_deep [] "a.c" (.num 2)) "a.b" (.num 1)))
      = .obj [("a", .obj [("b", .num 1), ("c", .num 2)])] := by
  refine ⟨?_, ?_, ?_⟩
  · intro p q v w hpq hqp
    unfold _set_deep
    rw [norm_obj, norm_obj]
    exact congrArg Value.obj
      (setD_comm_aux (pathKeys p) (pathKeys q) (pathKeys_ne_nil p) (pathKeys_ne_nil q)
        hpq hqp v w)
  · rw [show _set_deep (_set_deep [] "a.b" (.num 1)) "a.c" (.num 2)
        = [("a", .obj [("b", .num 1), ("c", .num 2)])] from by decide]
    simp [Value.norm, normFields, sortFields, insertField]
    decide
  · rw [show _set_deep (_set_deep [] "a.c" (.num 2)) "a.b" (.num 1)
        = [("a", .obj [("c", .num 2), ("b", .num 1)])] from by decide]
    simp [Value.norm, normFields, sortFields, insertField]
    decide

/-- C5 witness: the commutation statement applied to the sibling paths
`x.one` and `x.two`. -/
theorem c5_witness :
    Value.norm (.obj (_set_deep (_set_deep [] "x.one" (.num 1)) "x.two" (.num 2)))
      = Value.norm (.obj (_set_deep (_set_deep [] "x.two" (.num 2)) "x.one" (.num 1))) :=
  c5_set_deep_comm.1 "x.one" "x.two" (.num 1) (.num 2) (by decide) (by decide)
